import Mathlib

/-!
# Casdoor user core: password policy, integrity hash, password-change protocol

Shallow embedding of `object/user.go`, `object/check.go` and the
`SetPassword` handler of `controllers/user.go`.

Conventions of the embedding.

* Go strings are Lean strings; `len(s)` is the UTF-8 byte size.
* A Go panic (nil dereference, `panic(err)` on a store fault) is `none` in an
  `Option` result; a normal return is `some`.
* Functions of the repository that the three files call but do not define
  (`getSaltedPassword`, `GetOrganizationByUser`, `util.GetMd5Hash`,
  `util.GetOwnerAndNameFromId`) are fields of `Env`: the general theorems
  quantify over them, the closed ones evaluate the code in `sampleEnv`.
* The `user` table behind `adapter.Engine` is a list of rows with primary key
  `(owner, name)`, together with the number of write statements executed so
  far. `Engine.Get` on a bean takes only the bean's non-empty fields as
  conditions; `Engine.ID(core.PK{owner, name})` compares both key parts.
* The field of a map update is an identifier the database resolves to a
  column; the exact column names resolve to themselves, every other spelling
  is resolved by `Env.columnOfIdentifier`.
-/

namespace Casdoor

/-! ## Data model -/

/-- The `User` struct of `object/user.go` (field `Type` is spelled `Type_`). -/
structure User where
  Owner : String
  Name : String
  CreatedTime : String
  Id : String
  Type_ : String
  Password : String
  DisplayName : String
  Avatar : String
  Email : String
  Phone : String
  Affiliation : String
  Tag : String
  IsAdmin : Bool
  IsGlobalAdmin : Bool
  IsForbidden : Bool
  Hash : String
  PreHash : String
  Github : String
  Google : String
  QQ : String
  WeChat : String
deriving DecidableEq, Repr

/-- The fields of `Organization` that the user core reads. -/
structure Organization where
  PasswordType : String
  PasswordSalt : String
deriving DecidableEq, Repr

/-- External collaborators of the three source files. -/
structure Env where
  /-- `getSaltedPassword(password, salt)` of package `object`. -/
  getSaltedPassword : String → String → String
  /-- `GetOrganizationByUser(user)`; `none` is the nil pointer. -/
  GetOrganizationByUser : User → Option Organization
  /-- `util.GetMd5Hash`. -/
  GetMd5Hash : String → String
  /-- `util.GetOwnerAndNameFromId`; `none` is a panic on a malformed id. -/
  GetOwnerAndNameFromId : String → Option (String × String)
  /-- How the database coerces a string written into a boolean column;
  `none` is a statement error. -/
  boolOfColumnValue : String → Option Bool
  /-- Whether the driver counts a matched row as affected, given the row
  before and after the statement (drivers differ on unchanged rows). -/
  rowAffected : User → User → Bool
  /-- The column the database resolves an identifier to when it is not spelled
  exactly as a column name (identifier matching may ignore case); `none` is a
  statement error. -/
  columnOfIdentifier : String → Option String

/-- The `user` table and the number of write statements executed on it. -/
structure Store where
  rows : List User
  writes : Nat
deriving DecidableEq, Repr

/-! ## The engine: keyed reads and writes on the `user` table -/

/-- Primary-key test `owner = ? AND name = ?` of `Engine.ID(core.PK{owner, name})`. -/
def hasKey (owner name : String) (r : User) : Bool :=
  decide (r.Owner = owner) && decide (r.Name = name)

/-- Condition `Engine.Get` builds from the bean `User{Owner: owner, Name: name}`:
a field of the bean is a condition only when it is not the empty string. -/
def matchesBean (owner name : String) (r : User) : Bool :=
  (decide (owner = "") || decide (r.Owner = owner)) &&
    (decide (name = "") || decide (r.Name = name))

/-- Row transformer of an `UPDATE ... WHERE owner = ? AND name = ?`. -/
def updateRows (owner name : String) (f : User → User) (rows : List User) : List User :=
  rows.map (fun r => if hasKey owner name r then f r else r)

/-- Number of rows the driver reports as affected by such an update. -/
def affectedRows (env : Env) (owner name : String) (f : User → User) (rows : List User) : Nat :=
  (rows.filter (fun r => hasKey owner name r && env.rowAffected r (f r))).length

/-- Copy one column, named as in the table, from the struct `src` into `row`. -/
def copyColumn (src : User) (row : User) (col : String) : User :=
  if col = "owner" then { row with Owner := src.Owner }
  else if col = "name" then { row with Name := src.Name }
  else if col = "created_time" then { row with CreatedTime := src.CreatedTime }
  else if col = "id" then { row with Id := src.Id }
  else if col = "type" then { row with Type_ := src.Type_ }
  else if col = "password" then { row with Password := src.Password }
  else if col = "display_name" then { row with DisplayName := src.DisplayName }
  else if col = "avatar" then { row with Avatar := src.Avatar }
  else if col = "email" then { row with Email := src.Email }
  else if col = "phone" then { row with Phone := src.Phone }
  else if col = "affiliation" then { row with Affiliation := src.Affiliation }
  else if col = "tag" then { row with Tag := src.Tag }
  else if col = "is_admin" then { row with IsAdmin := src.IsAdmin }
  else if col = "is_global_admin" then { row with IsGlobalAdmin := src.IsGlobalAdmin }
  else if col = "is_forbidden" then { row with IsForbidden := src.IsForbidden }
  else if col = "hash" then { row with Hash := src.Hash }
  else if col = "pre_hash" then { row with PreHash := src.PreHash }
  else if col = "github" then { row with Github := src.Github }
  else if col = "google" then { row with Google := src.Google }
  else if col = "qq" then { row with QQ := src.QQ }
  else if col = "wechat" then { row with WeChat := src.WeChat }
  else row

/-- `Engine.ID(core.PK{owner, name}).Cols(cols...).Update(src)`: the listed
columns of the keyed row are overwritten with the struct's values, zero values
included. Returns the affected count and the new table. -/
def engineUpdateCols (env : Env) (s : Store) (owner name : String) (cols : List String)
    (src : User) : Nat × Store :=
  let f : User → User := fun r => cols.foldl (copyColumn src) r
  (affectedRows env owner name f s.rows,
   { rows := updateRows owner name f s.rows, writes := s.writes + 1 })

/-- The assignment `SET col = value` on the column named `field`; `none` is a
statement error (no such column, or a value the boolean column does not take). -/
def columnAssign (env : Env) (field value : String) : Option (User → User) :=
  if field = "owner" then some (fun r => { r with Owner := value })
  else if field = "name" then some (fun r => { r with Name := value })
  else if field = "created_time" then some (fun r => { r with CreatedTime := value })
  else if field = "id" then some (fun r => { r with Id := value })
  else if field = "type" then some (fun r => { r with Type_ := value })
  else if field = "password" then some (fun r => { r with Password := value })
  else if field = "display_name" then some (fun r => { r with DisplayName := value })
  else if field = "avatar" then some (fun r => { r with Avatar := value })
  else if field = "email" then some (fun r => { r with Email := value })
  else if field = "phone" then some (fun r => { r with Phone := value })
  else if field = "affiliation" then some (fun r => { r with Affiliation := value })
  else if field = "tag" then some (fun r => { r with Tag := value })
  else if field = "is_admin" then
    (env.boolOfColumnValue value).map (fun b r => { r with IsAdmin := b })
  else if field = "is_global_admin" then
    (env.boolOfColumnValue value).map (fun b r => { r with IsGlobalAdmin := b })
  else if field = "is_forbidden" then
    (env.boolOfColumnValue value).map (fun b r => { r with IsForbidden := b })
  else if field = "hash" then some (fun r => { r with Hash := value })
  else if field = "pre_hash" then some (fun r => { r with PreHash := value })
  else if field = "github" then some (fun r => { r with Github := value })
  else if field = "google" then some (fun r => { r with Google := value })
  else if field = "qq" then some (fun r => { r with QQ := value })
  else if field = "wechat" then some (fun r => { r with WeChat := value })
  else none

/-- The columns of the `user` table. -/
def userColumns : List String :=
  ["owner", "name", "created_time", "id", "type", "password", "display_name", "avatar",
   "email", "phone", "affiliation", "tag", "is_admin", "is_global_admin", "is_forbidden",
   "hash", "pre_hash", "github", "google", "qq", "wechat"]

/-- The column an identifier of a map update names: a column name spelled
exactly names that column, any other spelling is resolved by the database. -/
def resolveColumn (env : Env) (field : String) : Option String :=
  if field ∈ userColumns then some field else env.columnOfIdentifier field

/-- The assignment `SET field = value` of a map update, `field` being pasted
into the statement as an identifier. -/
def columnUpdate (env : Env) (field value : String) : Option (User → User) :=
  match resolveColumn env field with
  | none => none
  | some col => columnAssign env col value

/-- `Engine.Table(user).ID(core.PK{owner, name}).Update(map{field: value})`. -/
def engineUpdateMap (env : Env) (s : Store) (owner name field value : String) :
    Option (Nat × Store) :=
  match columnUpdate env field value with
  | none => none
  | some f =>
    some (affectedRows env owner name f s.rows,
          { rows := updateRows owner name f s.rows, writes := s.writes + 1 })

/-- `Engine.Insert(user)`: a row with the same primary key is a store fault. -/
def engineInsert (s : Store) (user : User) : Option (Nat × Store) :=
  if s.rows.any (hasKey user.Owner user.Name) then none
  else some (1, { rows := s.rows ++ [user], writes := s.writes + 1 })

/-! ## object/user.go -/

/-- `getUser(owner, name)`: `Engine.Get` on the bean
`User{Owner: owner, Name: name}` returns the first row that meets the
conditions of the bean, or nil. -/
def getUser (s : Store) (owner name : String) : Option User :=
  s.rows.find? (matchesBean owner name)

/-- `GetUser(id)`; the outer `none` is the panic of the id parser. -/
def GetUser (env : Env) (s : Store) (id : String) : Option (Option User) :=
  match env.GetOwnerAndNameFromId id with
  | none => none
  | some (owner, name) => some (getUser s owner name)

/-- `calculateHash(user)`. -/
def calculateHash (env : Env) (user : User) : String :=
  env.GetMd5Hash
    (String.intercalate "|" [user.Id, user.Password, user.DisplayName, user.Avatar, user.Phone])

/-- `user.UpdateUserHash()`. -/
def UpdateUserHash (env : Env) (user : User) : User :=
  { user with Hash := calculateHash env user }

/-- `user.UpdateUserPassword(organization)`; a nil organization panics. -/
def UpdateUserPassword (env : Env) (user : User) (organization : Option Organization) :
    Option User :=
  match organization with
  | none => none
  | some org =>
    if org.PasswordType = "salt" then
      some { user with Password := env.getSaltedPassword user.Password org.PasswordSalt }
    else some user

/-- `user.GetId()`. -/
def User.GetId (user : User) : String :=
  user.Owner ++ "/" ++ user.Name

/-- `UpdateUser(id, user)`. -/
def UpdateUser (env : Env) (s : Store) (id : String) (user : User) : Option (Bool × Store) :=
  match env.GetOwnerAndNameFromId id with
  | none => none
  | some (owner, name) =>
    match getUser s owner name with
    | none => some (false, s)
    | some _ =>
      let user := UpdateUserHash env user
      let r := engineUpdateCols env s owner name
        ["display_name", "avatar", "affiliation", "tag", "is_admin", "is_global_admin",
         "is_forbidden", "hash"] user
      some (r.1 != 0, r.2)

/-- `UpdateUserForOriginal(user)`. -/
def UpdateUserForOriginal (env : Env) (s : Store) (user : User) : Bool × Store :=
  let r := engineUpdateCols env s user.Owner user.Name
    ["display_name", "password", "phone", "avatar", "is_forbidden", "hash", "pre_hash"] user
  (r.1 != 0, r.2)

/-- `AddUser(user)`; `generatedId` is the value `util.GenerateId()` returns. -/
def AddUser (env : Env) (s : Store) (generatedId : String) (user : User) :
    Option (Bool × Store) :=
  let user := { user with Id := generatedId }
  match UpdateUserPassword env user (env.GetOrganizationByUser user) with
  | none => none
  | some user =>
    let user := UpdateUserHash env user
    let user := { user with PreHash := user.Hash }
    match engineInsert s user with
    | none => none
    | some (affected, s1) => some (affected != 0, s1)

/-- `SetUserField(user, field, value)`. -/
def SetUserField (env : Env) (s : Store) (user : User) (field value : String) :
    Option (Bool × Store) :=
  let staged : Option (User × String) :=
    if field = "password" then
      match UpdateUserPassword env user (env.GetOrganizationByUser user) with
      | none => none
      | some u => some (u, u.Password)
    else some (user, value)
  match staged with
  | none => none
  | some (user, value) =>
    match engineUpdateMap env s user.Owner user.Name field value with
    | none => none
    | some (affected, s1) =>
      match getUser s1 user.Owner user.Name with
      | none => none
      | some user =>
        let user := UpdateUserHash env user
        let r := engineUpdateCols env s1 user.Owner user.Name ["hash"] user
        some (affected != 0, r.2)

/-- `GetMaskedUser(user)`. -/
def GetMaskedUser (user : User) : User :=
  if user.Password ≠ "" then { user with Password := "***" } else user

/-- `GetMaskedUsers(users)`: the loop masks every pointed-to record in place
and the same slice is returned. -/
def GetMaskedUsers : List User → List User
  | [] => []
  | user :: users => GetMaskedUser user :: GetMaskedUsers users

/-! ## object/check.go -/

/-- `CheckPassword(user, password)`; a nil organization panics. -/
def CheckPassword (env : Env) (user : User) (password : String) : Option String :=
  match env.GetOrganizationByUser user with
  | none => none
  | some organization =>
    if organization.PasswordType = "plain" then
      if password = user.Password then some "" else some "password incorrect"
    else if organization.PasswordType = "salt" then
      if password = user.Password ∨
          env.getSaltedPassword password organization.PasswordSalt = user.Password then
        some ""
      else some "password incorrect"
    else some ("unsupported password type: " ++ organization.PasswordType)

/-- A match of the pattern of `reWhiteSpace` (`\s`) on one character. -/
def isWhiteSpace (c : Char) : Bool :=
  c = ' ' || c = '\t' || c = '\n' || c = '\x0c' || c = '\r'

/-- `reWhiteSpace.MatchString(s)`. -/
def reWhiteSpaceMatch (s : String) : Bool :=
  s.data.any isWhiteSpace

/-! ## controllers/user.go: the `SetPassword` handler -/

/-- The handler's JSON outcome: a status and an error message. -/
structure Response where
  Status : String
  Msg : String
deriving DecidableEq, Repr

/-- Modelled from the spec: `c.ResponseError(msg)` is not in the three source
files; the spec describes the outcome of a rejected operation as the
structured pair of a status and an error message. -/
def ResponseError (msg : String) : Response :=
  { Status := "error", Msg := msg }

/-- Byte index of the first blank space of a character list read from byte
offset `i`, or `-1`. -/
def indexSpaceFrom : List Char → Nat → Int
  | [], _ => -1
  | c :: cs, i => if c = ' ' then (i : Int) else indexSpaceFrom cs (i + c.utf8Size)

/-- `strings.Index(s, " ")`. -/
def stringsIndexSpace (s : String) : Int :=
  indexSpaceFrom s.data 0

/-- The permission decision of `SetPassword` (the `hasPermission` variable). -/
def hasPermission (requestUser : User) (requestUserId userId : String) (targetUser : User) :
    Bool :=
  if requestUser.IsGlobalAdmin then true
  else if requestUserId = userId then true
  else if targetUser.Owner = requestUser.Owner && requestUser.IsAdmin then true
  else false

/-- `SetPassword`: `sessionUser` is `c.GetSessionUser()`, the other four
strings are the form values. Returns the response and the table afterwards. -/
def SetPassword (env : Env) (s : Store)
    (sessionUser userOwner userName oldPassword newPassword : String) :
    Option (Response × Store) :=
  let requestUserId := sessionUser
  if requestUserId = "" then some (ResponseError "Please login first.", s)
  else
    match GetUser env s requestUserId with
    | none => none
    | some none => some (ResponseError "Session outdated. Please login again.", s)
    | some (some requestUser) =>
      let userId := userOwner ++ "/" ++ userName
      match GetUser env s userId with
      | none => none
      | some none => some (ResponseError "Invalid user id.", s)
      | some (some targetUser) =>
        if !hasPermission requestUser requestUserId userId targetUser then
          some (ResponseError "You don't have the permission to do this.", s)
        else
          match CheckPassword env targetUser oldPassword with
          | none => none
          | some msg =>
            if msg ≠ "" then some (ResponseError msg, s)
            else if stringsIndexSpace newPassword ≥ 0 then
              some (ResponseError "New password cannot contain blank space.", s)
            else if newPassword.utf8ByteSize ≤ 5 then
              some (ResponseError "New password must have at least 6 characters", s)
            else
              let targetUser := { targetUser with Password := newPassword }
              match SetUserField env s targetUser "password" targetUser.Password with
              | none => none
              | some r => some ({ Status := "ok", Msg := "" }, r.2)

/-! ## A concrete environment and table, used to instantiate the theorems -/

/-- Split a character list at its first slash. -/
def splitAtSlash : List Char → Option (List Char × List Char)
  | [] => none
  | c :: cs =>
    if c = '/' then some ([], cs)
    else
      match splitAtSlash cs with
      | none => none
      | some p => some (c :: p.1, p.2)

/-- An id parser: exactly one slash, owner before it and name after it. -/
def sampleParseId (id : String) : Option (String × String) :=
  match splitAtSlash id.data with
  | none => none
  | some p => if '/' ∈ p.2 then none else some (String.mk p.1, String.mk p.2)

/-- A sample environment: tenant `T` is salted with salt `xyz`, tenant `P` is
plain, tenant `L` carries the mode `bcrypt-legacy`; the digest and the salted
transform are injective tagging functions; identifiers are matched to columns
without regard to case. -/
def sampleEnv : Env where
  getSaltedPassword := fun password salt => "salted:" ++ salt ++ ":" ++ password
  GetOrganizationByUser := fun u =>
    if u.Owner = "T" then some { PasswordType := "salt", PasswordSalt := "xyz" }
    else if u.Owner = "P" then some { PasswordType := "plain", PasswordSalt := "" }
    else if u.Owner = "L" then some { PasswordType := "bcrypt-legacy", PasswordSalt := "" }
    else none
  GetMd5Hash := fun s => "md5:" ++ s
  GetOwnerAndNameFromId := sampleParseId
  boolOfColumnValue := fun v =>
    if v = "1" then some true else if v = "0" then some false else none
  rowAffected := fun _ _ => true
  columnOfIdentifier := fun field => some (String.mk (field.data.map Char.toLower))

/-- A user with every field empty except the key. -/
def blankUser (owner name : String) : User :=
  { Owner := owner, Name := name, CreatedTime := "", Id := "", Type_ := "", Password := "",
    DisplayName := "", Avatar := "", Email := "", Phone := "", Affiliation := "", Tag := "",
    IsAdmin := false, IsGlobalAdmin := false, IsForbidden := false, Hash := "", PreHash := "",
    Github := "", Google := "", QQ := "", WeChat := "" }

/-- Tenant admin `bob` of the salted tenant `T`. -/
def sampleBob : User :=
  { blankUser "T" "bob" with
    Id := "id-bob", Password := "salted:xyz:bobpw1", DisplayName := "Bob", IsAdmin := true,
    Hash := "md5:id-bob|salted:xyz:bobpw1|Bob||", PreHash := "md5:id-bob|salted:xyz:bobpw1|Bob||" }

/-- User `carol` of tenant `T`, whose stored password is the salted `old1!`. -/
def sampleCarol : User :=
  { blankUser "T" "carol" with
    Id := "id-carol", Password := "salted:xyz:old1!", DisplayName := "Carol",
    Hash := "md5:id-carol|salted:xyz:old1!|Carol||",
    PreHash := "md5:id-carol|salted:xyz:old1!|Carol||" }

/-- User `dave` of the plain tenant `P`. -/
def sampleDave : User :=
  { blankUser "P" "dave" with
    Id := "id-dave", Password := "davepw", DisplayName := "Dave",
    Hash := "md5:id-dave|davepw|Dave||", PreHash := "md5:id-dave|davepw|Dave||" }

/-- A table holding the three sample users. -/
def sampleStore : Store :=
  { rows := [sampleBob, sampleCarol, sampleDave], writes := 0 }

/-! ## Auxiliary lemmas: strings -/

theorem unsupported_ne_incorrect (t : String) :
    "unsupported password type: " ++ t ≠ "password incorrect" := by
  intro h
  have h2 := congrArg (fun s => s.data.head?) h
  simp [String.data_append] at h2

theorem unsupported_ne_empty (t : String) :
    "unsupported password type: " ++ t ≠ "" := by
  intro h
  have h2 := congrArg (fun s => s.data.length) h
  simp [String.data_append] at h2

theorem indexSpaceFrom_nonneg_iff (l : List Char) (i : Nat) :
    0 ≤ indexSpaceFrom l i ↔ ' ' ∈ l := by
  induction l generalizing i with
  | nil => simp [indexSpaceFrom]
  | cons c cs ih =>
    unfold indexSpaceFrom
    by_cases hc : c = ' '
    · simp [hc]
    · have hc2 : ¬ ' ' = c := fun h => hc h.symm
      simp [hc, hc2, ih]

theorem stringsIndexSpace_nonneg_iff (s : String) :
    0 ≤ stringsIndexSpace s ↔ ' ' ∈ s.data :=
  indexSpaceFrom_nonneg_iff s.data 0

theorem splitAtSlash_spec (l o n : List Char) (h : splitAtSlash l = some (o, n)) :
    l = o ++ '/' :: n := by
  induction l generalizing o n with
  | nil => simp [splitAtSlash] at h
  | cons c cs ih =>
    unfold splitAtSlash at h
    by_cases hc : c = '/'
    · simp [hc] at h
      obtain ⟨h1, h2⟩ := h
      subst h1; subst h2; simp [hc]
    · simp only [hc, if_false] at h
      cases hs : splitAtSlash cs with
      | none => simp [hs] at h
      | some p =>
        simp only [hs, Option.some.injEq, Prod.mk.injEq] at h
        obtain ⟨h1, h2⟩ := h
        have := ih p.1 p.2 hs
        subst h1; subst h2
        simp [this]

theorem sampleParseId_spec (id o n : String) (h : sampleParseId id = some (o, n)) :
    id = o ++ "/" ++ n := by
  unfold sampleParseId at h
  cases hs : splitAtSlash id.data with
  | none => simp [hs] at h
  | some p =>
    simp only [hs] at h
    by_cases hm : '/' ∈ p.2
    · simp [hm] at h
    · simp only [hm, if_false, Option.some.injEq, Prod.mk.injEq] at h
      obtain ⟨h1, h2⟩ := h
      have hl := splitAtSlash_spec id.data p.1 p.2 hs
      apply String.ext
      subst h1; subst h2
      simp [String.data_append, hl]

/-! ## Auxiliary lemmas: the keyed table -/

theorem hasKey_iff (owner name : String) (r : User) :
    hasKey owner name r = true ↔ r.Owner = owner ∧ r.Name = name := by
  simp [hasKey]

theorem matchesBean_iff (owner name : String) (r : User) :
    matchesBean owner name r = true ↔
      (owner = "" ∨ r.Owner = owner) ∧ (name = "" ∨ r.Name = name) := by
  simp [matchesBean]

theorem matchesBean_self (r : User) : matchesBean r.Owner r.Name r = true := by
  simp [matchesBean]

theorem matchesBean_nonempty (owner name : String) (r : User) (ho : owner ≠ "")
    (hn : name ≠ "") : matchesBean owner name r = hasKey owner name r := by
  simp [matchesBean, hasKey, ho, hn]

/-- The row `Engine.Get` returns meets the conditions of the bean: each
non-empty key part of the bean is the key part of the row. -/
theorem getUser_key (s : Store) (owner name : String) (u : User)
    (h : getUser s owner name = some u) :
    (owner = "" ∨ u.Owner = owner) ∧ (name = "" ∨ u.Name = name) :=
  (matchesBean_iff owner name u).1 (List.find?_some h)

theorem find_of_imp (p q : User → Bool) (rows : List User) (u : User)
    (h : rows.find? p = some u) (hq : q u = true) (himp : ∀ r, q r = true → p r = true) :
    rows.find? q = some u := by
  induction rows with
  | nil => simp at h
  | cons r rs ih =>
    by_cases hp : p r = true
    · rw [List.find?_cons_of_pos _ hp] at h
      cases h
      rw [List.find?_cons_of_pos _ hq]
    · rw [List.find?_cons_of_neg _ hp] at h
      have hnq : ¬ q r = true := fun hc => hp (himp r hc)
      rw [List.find?_cons_of_neg _ hnq]
      exact ih h

/-- A row found by `getUser` is found again under its own key. -/
theorem getUser_self (s : Store) (owner name : String) (u : User)
    (h : getUser s owner name = some u) : getUser s u.Owner u.Name = some u := by
  unfold getUser at h ⊢
  obtain ⟨ho, hn⟩ := getUser_key s owner name u h
  refine find_of_imp _ _ s.rows u h (matchesBean_self u) ?_
  intro r hr
  rw [matchesBean_iff] at hr ⊢
  obtain ⟨hro, hrn⟩ := hr
  constructor
  · rcases ho with ho | ho
    · exact Or.inl ho
    · rcases hro with hro | hro
      · exact Or.inl (by rw [← ho, hro])
      · exact Or.inr (by rw [hro, ho])
  · rcases hn with hn | hn
    · exact Or.inl hn
    · rcases hrn with hrn | hrn
      · exact Or.inl (by rw [← hn, hrn])
      · exact Or.inr (by rw [hrn, hn])

theorem GetUser_self (env : Env) (s : Store) (id : String) (u : User)
    (h : GetUser env s id = some (some u)) : getUser s u.Owner u.Name = some u := by
  unfold GetUser at h
  cases hp : env.GetOwnerAndNameFromId id with
  | none => simp [hp] at h
  | some p =>
    obtain ⟨o, n⟩ := p
    simp only [hp, Option.some.injEq] at h
    exact getUser_self s o n u h

theorem updateRows_map_eq {β : Type} (proj : User → β) (owner name : String) (f : User → User)
    (rows : List User) (hf : ∀ r, proj (f r) = proj r) :
    (updateRows owner name f rows).map proj = rows.map proj := by
  unfold updateRows
  rw [List.map_map]
  apply List.map_congr_left
  intro r _
  by_cases hk : hasKey owner name r = true <;> simp [hk, hf]

/-- A lookup after a keyed update that does not move rows in or out of the
lookup's condition returns the updated image of the row found before. -/
theorem find_updateRows (p : User → Bool) (owner name : String) (f : User → User)
    (rows : List User) (hf : ∀ r, hasKey owner name r = true → p (f r) = p r) :
    (updateRows owner name f rows).find? p =
      (rows.find? p).map (fun r => if hasKey owner name r then f r else r) := by
  induction rows with
  | nil => simp [updateRows]
  | cons r rs ih =>
    unfold updateRows at ih ⊢
    rw [List.map_cons]
    have himg : p (if hasKey owner name r = true then f r else r) = p r := by
      by_cases hk : hasKey owner name r = true
      · rw [if_pos hk]; exact hf r hk
      · rw [if_neg hk]
    by_cases hp : p r = true
    · rw [List.find?_cons_of_pos _ (himg.trans hp), List.find?_cons_of_pos _ hp]
      rfl
    · have hp2 : ¬ p (if hasKey owner name r = true then f r else r) = true := by
        rw [himg]; exact hp
      rw [List.find?_cons_of_neg _ hp2, List.find?_cons_of_neg _ hp]
      exact ih

/-! ## Auxiliary lemmas: column lists and statements -/

theorem hashCol_apply (src r : User) :
    List.foldl (copyColumn src) r ["hash"] = { r with Hash := src.Hash } := by
  simp [copyColumn]

theorem updateUserCols_apply (src r : User) :
    List.foldl (copyColumn src) r
        ["display_name", "avatar", "affiliation", "tag", "is_admin", "is_global_admin",
         "is_forbidden", "hash"] =
      { r with DisplayName := src.DisplayName, Avatar := src.Avatar,
               Affiliation := src.Affiliation, Tag := src.Tag, IsAdmin := src.IsAdmin,
               IsGlobalAdmin := src.IsGlobalAdmin, IsForbidden := src.IsForbidden,
               Hash := src.Hash } := by
  simp [copyColumn]

theorem originalCols_apply (src r : User) :
    List.foldl (copyColumn src) r
        ["display_name", "password", "phone", "avatar", "is_forbidden", "hash", "pre_hash"] =
      { r with DisplayName := src.DisplayName, Password := src.Password, Phone := src.Phone,
               Avatar := src.Avatar, IsForbidden := src.IsForbidden, Hash := src.Hash,
               PreHash := src.PreHash } := by
  simp [copyColumn]

theorem columnUpdate_password (env : Env) (value : String) :
    columnUpdate env "password" value = some (fun r => { r with Password := value }) := by
  have hres : resolveColumn env "password" = some "password" := by
    unfold resolveColumn
    rw [if_pos (by decide)]
  unfold columnUpdate
  rw [hres]
  simp [columnAssign]

theorem columnAssign_preHash (env : Env) (field value : String) (f : User → User)
    (h : columnAssign env field value = some f) (hfield : field ≠ "pre_hash") (r : User) :
    (f r).PreHash = r.PreHash := by
  unfold columnAssign at h
  by_cases hc : field = "owner"
  · rw [if_pos hc] at h; cases h; rfl
  rw [if_neg hc] at h; clear hc
  by_cases hc : field = "name"
  · rw [if_pos hc] at h; cases h; rfl
  rw [if_neg hc] at h; clear hc
  by_cases hc : field = "created_time"
  · rw [if_pos hc] at h; cases h; rfl
  rw [if_neg hc] at h; clear hc
  by_cases hc : field = "id"
  · rw [if_pos hc] at h; cases h; rfl
  rw [if_neg hc] at h; clear hc
  by_cases hc : field = "type"
  · rw [if_pos hc] at h; cases h; rfl
  rw [if_neg hc] at h; clear hc
  by_cases hc : field = "password"
  · rw [if_pos hc] at h; cases h; rfl
  rw [if_neg hc] at h; clear hc
  by_cases hc : field = "display_name"
  · rw [if_pos hc] at h; cases h; rfl
  rw [if_neg hc] at h; clear hc
  by_cases hc : field = "avatar"
  · rw [if_pos hc] at h; cases h; rfl
  rw [if_neg hc] at h; clear hc
  by_cases hc : field = "email"
  · rw [if_pos hc] at h; cases h; rfl
  rw [if_neg hc] at h; clear hc
  by_cases hc : field = "phone"
  · rw [if_pos hc] at h; cases h; rfl
  rw [if_neg hc] at h; clear hc
  by_cases hc : field = "affiliation"
  · rw [if_pos hc] at h; cases h; rfl
  rw [if_neg hc] at h; clear hc
  by_cases hc : field = "tag"
  · rw [if_pos hc] at h; cases h; rfl
  rw [if_neg hc] at h; clear hc
  by_cases hc : field = "is_admin"
  · rw [if_pos hc] at h
    cases hb : env.boolOfColumnValue value with
    | none => rw [hb] at h; cases h
    | some b => rw [hb] at h; cases h; rfl
  rw [if_neg hc] at h; clear hc
  by_cases hc : field = "is_global_admin"
  · rw [if_pos hc] at h
    cases hb : env.boolOfColumnValue value with
    | none => rw [hb] at h; cases h
    | some b => rw [hb] at h; cases h; rfl
  rw [if_neg hc] at h; clear hc
  by_cases hc : field = "is_forbidden"
  · rw [if_pos hc] at h
    cases hb : env.boolOfColumnValue value with
    | none => rw [hb] at h; cases h
    | some b => rw [hb] at h; cases h; rfl
  rw [if_neg hc] at h; clear hc
  by_cases hc : field = "hash"
  · rw [if_pos hc] at h; cases h; rfl
  rw [if_neg hc] at h; clear hc
  by_cases hc : field = "pre_hash"
  · exact absurd hc hfield
  rw [if_neg hc] at h; clear hc
  by_cases hc : field = "github"
  · rw [if_pos hc] at h; cases h; rfl
  rw [if_neg hc] at h; clear hc
  by_cases hc : field = "google"
  · rw [if_pos hc] at h; cases h; rfl
  rw [if_neg hc] at h; clear hc
  by_cases hc : field = "qq"
  · rw [if_pos hc] at h; cases h; rfl
  rw [if_neg hc] at h; clear hc
  by_cases hc : field = "wechat"
  · rw [if_pos hc] at h; cases h; rfl
  rw [if_neg hc] at h; clear hc
  cases h

theorem columnAssign_pre_hash (env : Env) (value : String) :
    columnAssign env "pre_hash" value = some (fun r => { r with PreHash := value }) := by
  simp [columnAssign]

/-- A map update whose identifier does not name the column `pre_hash` leaves
the PreHash of a row as it was. -/
theorem columnUpdate_preHash (env : Env) (field value : String) (f : User → User)
    (h : columnUpdate env field value = some f)
    (hfield : resolveColumn env field ≠ some "pre_hash") (r : User) :
    (f r).PreHash = r.PreHash := by
  unfold columnUpdate at h
  cases hres : resolveColumn env field with
  | none => rw [hres] at h; cases h
  | some col =>
    rw [hres] at h hfield
    exact columnAssign_preHash env col value f h (fun hc => hfield (by rw [hc])) r

theorem getUser_hashUpdate (env : Env) (s : Store) (owner name : String) (u2 : User)
    (hg : getUser s owner name = some u2) :
    getUser (engineUpdateCols env s u2.Owner u2.Name ["hash"] (UpdateUserHash env u2)).2
        owner name =
      some { u2 with Hash := calculateHash env u2 } := by
  unfold getUser at hg ⊢
  unfold engineUpdateCols UpdateUserHash
  simp only [hashCol_apply]
  rw [find_updateRows, hg]
  · have hk : hasKey u2.Owner u2.Name u2 = true := (hasKey_iff _ _ _).2 ⟨rfl, rfl⟩
    simp only [Option.map_some', hk, if_true]
  · intro r _
    rfl

theorem preHash_hashUpdate (env : Env) (s : Store) (owner name : String) (src : User) :
    (engineUpdateCols env s owner name ["hash"] src).2.rows.map User.PreHash =
      s.rows.map User.PreHash := by
  unfold engineUpdateCols
  simp only [hashCol_apply]
  exact updateRows_map_eq User.PreHash owner name _ _ (fun r => rfl)

/-- The staging step of `SetUserField` keeps the key of its argument. -/
theorem UpdateUserPassword_key (env : Env) (user u : User) (org : Option Organization)
    (h : UpdateUserPassword env user org = some u) : u.Owner = user.Owner ∧ u.Name = user.Name := by
  unfold UpdateUserPassword at h
  cases org with
  | none => simp at h
  | some o =>
    simp only at h
    split_ifs at h <;> cases h <;> exact ⟨rfl, rfl⟩

/-- After `SetUserField` returns, the record found under the key of the
argument is consistent, and the PreHash column of the table is the one the map
update left: the value written is the argument `value` unless the field is
`password`. -/
theorem SetUserField_returns (env : Env) (s s' : Store) (user : User) (field value : String)
    (b : Bool) (h : SetUserField env s user field value = some (b, s')) :
    (∃ r, getUser s' user.Owner user.Name = some r ∧ r.Hash = calculateHash env r) ∧
    (∃ v f, columnUpdate env field v = some f ∧ (field ≠ "password" → v = value) ∧
      s'.rows.map User.PreHash =
        (updateRows user.Owner user.Name f s.rows).map User.PreHash) := by
  unfold SetUserField at h
  have hstaged : ∀ u v,
      (if field = "password" then
          match UpdateUserPassword env user (env.GetOrganizationByUser user) with
          | none => none
          | some u => some (u, u.Password)
        else some (user, value)) = some (u, v) →
      u.Owner = user.Owner ∧ u.Name = user.Name ∧ (field ≠ "password" → v = value) := by
    intro u v hs
    split_ifs at hs with hf
    · cases hup : UpdateUserPassword env user (env.GetOrganizationByUser user) with
      | none => rw [hup] at hs; cases hs
      | some w =>
        rw [hup] at hs
        cases hs
        obtain ⟨h1, h2⟩ := UpdateUserPassword_key env user _ _ hup
        exact ⟨h1, h2, fun hc => absurd hf hc⟩
    · cases hs
      exact ⟨rfl, rfl, fun _ => rfl⟩
  generalize (if field = "password" then
          match UpdateUserPassword env user (env.GetOrganizationByUser user) with
          | none => none
          | some u => some (u, u.Password)
        else some (user, value)) = staged at h hstaged
  cases staged with
  | none => simp at h
  | some p =>
    obtain ⟨u, v⟩ := p
    obtain ⟨ho, hn, hv⟩ := hstaged u v rfl
    simp only at h
    unfold engineUpdateMap at h
    cases hcu : columnUpdate env field v with
    | none => simp [hcu] at h
    | some f =>
      simp only [hcu] at h
      cases hg : getUser { rows := updateRows u.Owner u.Name f s.rows, writes := s.writes + 1 }
          u.Owner u.Name with
      | none => simp [hg] at h
      | some u2 =>
        simp only [hg, Option.some.injEq, Prod.mk.injEq] at h
        obtain ⟨_, hs'⟩ := h
        subst hs'
        refine ⟨⟨{ u2 with Hash := calculateHash env u2 }, ?_, rfl⟩, v, f, hcu, hv, ?_⟩
        · rw [← ho, ← hn]
          exact getUser_hashUpdate env _ u.Owner u.Name u2 hg
        · rw [← ho, ← hn]
          exact preHash_hashUpdate env _ _ _ _

/-! ## Credential policy engine -/

/-- C1: when the organization of the user has PasswordType `plain`,
`CheckPassword` returns the empty message iff the candidate equals the stored
password; when it is `salt`, iff the candidate equals the stored password or
its salted form does; in every other case under these two modes the result is
`password incorrect`. -/
theorem CheckPassword_plain_salt (env : Env) (user : User) (password : String)
    (org : Organization) (horg : env.GetOrganizationByUser user = some org) :
    (org.PasswordType = "plain" →
      (CheckPassword env user password = some "" ↔ password = user.Password) ∧
      (password ≠ user.Password →
        CheckPassword env user password = some "password incorrect")) ∧
    (org.PasswordType = "salt" →
      (CheckPassword env user password = some "" ↔
        (password = user.Password ∨
          env.getSaltedPassword password org.PasswordSalt = user.Password)) ∧
      (¬ (password = user.Password ∨
          env.getSaltedPassword password org.PasswordSalt = user.Password) →
        CheckPassword env user password = some "password incorrect")) := by
  unfold CheckPassword
  rw [horg]
  refine ⟨fun hp => ?_, fun hs => ?_⟩
  · simp only [hp, if_true]
    by_cases he : password = user.Password
    · simp [he]
    · simp [he]
  · have hnp : ¬ org.PasswordType = "plain" := by rw [hs]; decide
    simp only []
    rw [if_neg hnp, if_pos hs]
    by_cases he : password = user.Password ∨
        env.getSaltedPassword password org.PasswordSalt = user.Password
    · rw [if_pos he]
      exact ⟨⟨fun _ => he, fun _ => rfl⟩, fun hne => absurd he hne⟩
    · rw [if_neg he]
      exact ⟨⟨fun h => absurd (Option.some.inj h) (by decide), fun h => absurd h he⟩,
        fun _ => rfl⟩

/-- Instance of C1: `carol` of the salted tenant, right and wrong candidate. -/
theorem CheckPassword_plain_salt_witness :
    sampleEnv.GetOrganizationByUser sampleCarol =
        some { PasswordType := "salt", PasswordSalt := "xyz" } ∧
      CheckPassword sampleEnv sampleCarol "old1!" = some "" ∧
      CheckPassword sampleEnv sampleCarol "wrong" = some "password incorrect" :=
  ⟨by decide,
   ((CheckPassword_plain_salt sampleEnv sampleCarol "old1!"
      { PasswordType := "salt", PasswordSalt := "xyz" } (by decide)).2 (by decide)).1.2
      (Or.inr (by decide)),
   ((CheckPassword_plain_salt sampleEnv sampleCarol "wrong"
      { PasswordType := "salt", PasswordSalt := "xyz" } (by decide)).2 (by decide)).2
      (by decide)⟩

/-- C5: round trip. Under PasswordType `plain` or `salt`, with any salt, the
transform for storage of a user whose Password is the candidate returns a
stored record, and `CheckPassword` of that record with the same candidate
under the same organization returns the empty message. -/
theorem UpdateUserPassword_CheckPassword_roundtrip (env : Env) (user : User)
    (candidate : String) (org : Organization)
    (hmode : org.PasswordType = "plain" ∨ org.PasswordType = "salt") :
    ∃ stored, UpdateUserPassword env { user with Password := candidate } (some org) = some stored ∧
      (env.GetOrganizationByUser stored = some org →
        CheckPassword env stored candidate = some "") := by
  unfold UpdateUserPassword
  rcases hmode with hp | hs
  · have hns : ¬ org.PasswordType = "salt" := by rw [hp]; decide
    refine ⟨{ user with Password := candidate }, by simp [hns], fun horg => ?_⟩
    unfold CheckPassword
    rw [horg]
    simp [hp]
  · refine ⟨{ user with Password := env.getSaltedPassword candidate org.PasswordSalt },
      by simp [hs], fun horg => ?_⟩
    unfold CheckPassword
    rw [horg]
    have hnp : ¬ org.PasswordType = "plain" := by rw [hs]; decide
    simp [hs]

/-- Instance of C5: the candidate `s3cret!` under the salted policy of salt `xyz`. -/
theorem UpdateUserPassword_CheckPassword_roundtrip_witness :
    UpdateUserPassword sampleEnv { sampleCarol with Password := "s3cret!" }
        (some { PasswordType := "salt", PasswordSalt := "xyz" }) =
      some { sampleCarol with Password := "salted:xyz:s3cret!" } ∧
    CheckPassword sampleEnv { sampleCarol with Password := "salted:xyz:s3cret!" } "s3cret!" =
      some "" := by
  obtain ⟨stored, hst, hck⟩ :=
    UpdateUserPassword_CheckPassword_roundtrip sampleEnv sampleCarol "s3cret!"
      { PasswordType := "salt", PasswordSalt := "xyz" } (Or.inr (by decide))
  have hs : stored = { sampleCarol with Password := "salted:xyz:s3cret!" } :=
    Option.some.inj (hst.symm.trans (by decide))
  subst hs
  exact ⟨hst, hck (by decide)⟩

/-- C6, as stated, fails for the transform: under the mode `bcrypt-legacy`
`UpdateUserPassword` returns normally and yields a stored form, the password
unchanged, although the claim says it reports an unsupported-mode error and
yields none. -/
theorem UpdateUserPassword_unsupported_yields_stored_form :
    UpdateUserPassword sampleEnv { blankUser "L" "lea" with Password := "hunter2" }
        (some { PasswordType := "bcrypt-legacy", PasswordSalt := "" }) =
      some { blankUser "L" "lea" with Password := "hunter2" } := by
  decide

/-- C6, amended: for every organization whose PasswordType is neither `plain`
nor `salt`, `CheckPassword` returns the message `unsupported password type:`
followed by the type, which is neither the success result nor
`password incorrect`; `UpdateUserPassword` has no error result and returns the
record unchanged. -/
theorem unsupported_PasswordType (env : Env) (user : User) (password : String)
    (org : Organization) (hplain : org.PasswordType ≠ "plain") (hsalt : org.PasswordType ≠ "salt") :
    (env.GetOrganizationByUser user = some org →
      CheckPassword env user password =
          some ("unsupported password type: " ++ org.PasswordType) ∧
        CheckPassword env user password ≠ some "" ∧
        CheckPassword env user password ≠ some "password incorrect") ∧
    UpdateUserPassword env user (some org) = some user := by
  refine ⟨fun horg => ?_, ?_⟩
  · have h : CheckPassword env user password =
        some ("unsupported password type: " ++ org.PasswordType) := by
      unfold CheckPassword
      rw [horg]
      simp [hplain, hsalt]
    refine ⟨h, ?_, ?_⟩
    · rw [h]
      intro hc
      exact unsupported_ne_empty _ (Option.some.inj hc)
    · rw [h]
      intro hc
      exact unsupported_ne_incorrect _ (Option.some.inj hc)
  · unfold UpdateUserPassword
    simp [hsalt]

/-- Instance of the amended C6 at the mode `bcrypt-legacy`. -/
theorem unsupported_PasswordType_witness :
    (CheckPassword sampleEnv (blankUser "L" "lea") "hunter2" =
        some ("unsupported password type: " ++ "bcrypt-legacy") ∧
      CheckPassword sampleEnv (blankUser "L" "lea") "hunter2" ≠ some "" ∧
      CheckPassword sampleEnv (blankUser "L" "lea") "hunter2" ≠ some "password incorrect") ∧
    UpdateUserPassword sampleEnv (blankUser "L" "lea")
        (some { PasswordType := "bcrypt-legacy", PasswordSalt := "" }) =
      some (blankUser "L" "lea") :=
  ⟨(unsupported_PasswordType sampleEnv (blankUser "L" "lea") "hunter2"
      { PasswordType := "bcrypt-legacy", PasswordSalt := "" } (by decide) (by decide)).1
      (by decide),
   (unsupported_PasswordType sampleEnv (blankUser "L" "lea") "hunter2"
      { PasswordType := "bcrypt-legacy", PasswordSalt := "" } (by decide) (by decide)).2⟩

/-! ## External exposure mask -/

/-- C9: `GetMaskedUsers` returns the input list, same length and order, with
each record's Password replaced by `***` when it was non-empty and left empty
otherwise, every other field unchanged; `GetMaskedUser` does the same for one
record. -/
theorem GetMaskedUsers_spec (users : List User) (user : User) :
    GetMaskedUsers users =
        users.map (fun u => { u with Password := if u.Password = "" then "" else "***" }) ∧
      (GetMaskedUsers users).length = users.length ∧
      GetMaskedUser user =
        { user with Password := if user.Password = "" then "" else "***" } := by
  have hone : ∀ u : User,
      GetMaskedUser u = { u with Password := if u.Password = "" then "" else "***" } := by
    intro u
    unfold GetMaskedUser
    by_cases hp : u.Password = ""
    · simp only [hp, ne_eq, not_true_eq_false, if_false, if_true]
      cases u
      simp_all
    · simp [hp]
  have hall : GetMaskedUsers users =
      users.map (fun u => { u with Password := if u.Password = "" then "" else "***" }) := by
    induction users with
    | nil => rfl
    | cons u us ih =>
      unfold GetMaskedUsers
      rw [ih, hone u]
      rfl
  refine ⟨hall, ?_, hone user⟩
  rw [hall, List.length_map]

/-! ## Password-change authorizer -/

theorem GetUser_parts (env : Env) (s : Store) (id o n : String) (u : User)
    (h : GetUser env s id = some (some u)) (hp : env.GetOwnerAndNameFromId id = some (o, n))
    (ho : o ≠ "") (hn : n ≠ "") : u.Owner = o ∧ u.Name = n := by
  unfold GetUser at h
  rw [hp] at h
  simp only [Option.some.injEq] at h
  obtain ⟨h1, h2⟩ := getUser_key s o n u h
  exact ⟨h1.resolve_left ho, h2.resolve_left hn⟩

/-- C2, as stated, fails: the session user `T/carol` asks for the password of
the target given by an empty `userOwner` and `userName` `carol`; the lookup
takes the empty owner as no condition and resolves the target to the record of
`carol` herself, so requester and target have the same `owner/name` id, yet
the decision is false and the request is answered with the permission error. -/
theorem SetPassword_denies_same_record :
    GetUser sampleEnv sampleStore "T/carol" = some (some sampleCarol) ∧
      GetUser sampleEnv sampleStore ("" ++ "/" ++ "carol") = some (some sampleCarol) ∧
      sampleCarol.GetId = "T/carol" ∧
      hasPermission sampleCarol "T/carol" ("" ++ "/" ++ "carol") sampleCarol = false ∧
      SetPassword sampleEnv sampleStore "T/carol" "" "carol" "old1!" "new12!" =
        some (ResponseError "You don't have the permission to do this.", sampleStore) := by
  decide

/-- C2, amended: for a requester and a target that both exist, the permission
decision of `SetPassword` is true iff the requester has IsGlobalAdmin, or the
session id of the requester equals the id string `userOwner/userName` of the
request, or the requester has IsAdmin and the two Owners are equal. Equal id
strings resolve to one and the same record; and when both ids parse into
non-empty owner and name, equality of the id strings is equality of the
`owner/name` ids of the two records. -/
theorem hasPermission_iff (env : Env) (s : Store) (requestUserId userOwner userName : String)
    (requestUser targetUser : User)
    (hreq : GetUser env s requestUserId = some (some requestUser))
    (htgt : GetUser env s (userOwner ++ "/" ++ userName) = some (some targetUser)) :
    (hasPermission requestUser requestUserId (userOwner ++ "/" ++ userName) targetUser = true ↔
      (requestUser.IsGlobalAdmin = true ∨ requestUserId = userOwner ++ "/" ++ userName ∨
        (requestUser.IsAdmin = true ∧ requestUser.Owner = targetUser.Owner))) ∧
    (requestUserId = userOwner ++ "/" ++ userName → requestUser = targetUser) ∧
    (∀ qo qn wo wn : String,
      env.GetOwnerAndNameFromId requestUserId = some (qo, qn) →
      env.GetOwnerAndNameFromId (userOwner ++ "/" ++ userName) = some (wo, wn) →
      requestUserId = qo ++ "/" ++ qn → userOwner ++ "/" ++ userName = wo ++ "/" ++ wn →
      qo ≠ "" → qn ≠ "" → wo ≠ "" → wn ≠ "" →
      (hasPermission requestUser requestUserId (userOwner ++ "/" ++ userName) targetUser = true ↔
        (requestUser.IsGlobalAdmin = true ∨ requestUser.GetId = targetUser.GetId ∨
          (requestUser.IsAdmin = true ∧ requestUser.Owner = targetUser.Owner)))) := by
  have hdec : hasPermission requestUser requestUserId (userOwner ++ "/" ++ userName) targetUser
      = true ↔
      (requestUser.IsGlobalAdmin = true ∨ requestUserId = userOwner ++ "/" ++ userName ∨
        (requestUser.IsAdmin = true ∧ requestUser.Owner = targetUser.Owner)) := by
    unfold hasPermission
    by_cases hg : requestUser.IsGlobalAdmin = true
    · simp [hg]
    · by_cases hid : requestUserId = userOwner ++ "/" ++ userName
      · simp [hid]
      · by_cases ha : requestUser.IsAdmin = true
        · by_cases ho : targetUser.Owner = requestUser.Owner
          · simp [hg, hid, ha, ho]
          · have ho2 : ¬ requestUser.Owner = targetUser.Owner := fun h => ho h.symm
            simp [hg, hid, ha, ho, ho2]
        · simp [hg, hid, ha]
  refine ⟨hdec, fun hid => ?_, ?_⟩
  · rw [hid, htgt] at hreq
    exact (Option.some.inj (Option.some.inj hreq)).symm
  · intro qo qn wo wn hpq hpt hq ht hqo hqn hwo hwn
    obtain ⟨h1, h2⟩ := GetUser_parts env s requestUserId qo qn requestUser hreq hpq hqo hqn
    obtain ⟨h3, h4⟩ := GetUser_parts env s _ wo wn targetUser htgt hpt hwo hwn
    have e1 : requestUserId = requestUser.GetId := by
      unfold User.GetId; rw [h1, h2]; exact hq
    have e2 : userOwner ++ "/" ++ userName = targetUser.GetId := by
      unfold User.GetId; rw [h3, h4]; exact ht
    rw [hdec, e2, e1]

/-- Instance of the amended C2: tenant admin `bob` of `T` and target `dave` of
`P`; and `carol` asking for her own record by her own id. -/
theorem hasPermission_iff_witness :
    (GetUser sampleEnv sampleStore "T/bob" = some (some sampleBob) ∧
      GetUser sampleEnv sampleStore ("P" ++ "/" ++ "dave") = some (some sampleDave) ∧
      (hasPermission sampleBob "T/bob" ("P" ++ "/" ++ "dave") sampleDave = true ↔
        (sampleBob.IsGlobalAdmin = true ∨ sampleBob.GetId = sampleDave.GetId ∨
          (sampleBob.IsAdmin = true ∧ sampleBob.Owner = sampleDave.Owner)))) ∧
    (GetUser sampleEnv sampleStore "T/carol" = some (some sampleCarol) ∧
      GetUser sampleEnv sampleStore ("T" ++ "/" ++ "carol") = some (some sampleCarol) ∧
      sampleCarol = sampleCarol) :=
  ⟨⟨by decide, by decide,
    (hasPermission_iff sampleEnv sampleStore "T/bob" "P" "dave" sampleBob sampleDave
      (by decide) (by decide)).2.2 "T" "bob" "P" "dave" (by decide) (by decide) (by decide)
      (by decide) (by decide) (by decide) (by decide) (by decide)⟩,
   ⟨by decide, by decide,
    (hasPermission_iff sampleEnv sampleStore "T/carol" "T" "carol" sampleCarol sampleCarol
      (by decide) (by decide)).2.1 (by decide)⟩⟩

/-! ## Change-password protocol -/

theorem UpdateUserPassword_some (env : Env) (user : User) (org : Organization) :
    UpdateUserPassword env user (some org) =
      some { user with Password :=
        if org.PasswordType = "salt" then env.getSaltedPassword user.Password org.PasswordSalt
        else user.Password } := by
  unfold UpdateUserPassword
  by_cases hs : org.PasswordType = "salt"
  · simp only [hs, if_true]
  · simp only [hs, if_false]

/-- `SetUserField` on the password column of an existing record: it returns,
the record then carries the transformed password and the hash of its own
attributes, and two write statements were executed. -/
theorem SetUserField_password (env : Env) (s : Store) (user row : User) (value : String)
    (org : Organization) (horg : env.GetOrganizationByUser user = some org)
    (hrow : getUser s user.Owner user.Name = some row)
    (hko : row.Owner = user.Owner) (hkn : row.Name = user.Name) :
    ∃ b s', SetUserField env s user "password" value = some (b, s') ∧
      getUser s' user.Owner user.Name =
        some { row with
          Password :=
            (if org.PasswordType = "salt" then
              env.getSaltedPassword user.Password org.PasswordSalt
            else user.Password),
          Hash := calculateHash env { row with Password :=
            (if org.PasswordType = "salt" then
              env.getSaltedPassword user.Password org.PasswordSalt
            else user.Password) } } ∧
      s'.rows.map User.PreHash = s.rows.map User.PreHash ∧
      s'.writes = s.writes + 2 := by
  generalize hpw : (if org.PasswordType = "salt" then
      env.getSaltedPassword user.Password org.PasswordSalt else user.Password) = pw
  have hup := UpdateUserPassword_some env user org
  rw [hpw] at hup
  have hkey : hasKey user.Owner user.Name row = true := (hasKey_iff _ _ _).2 ⟨hko, hkn⟩
  have hg1 : getUser
      { rows := (updateRows user.Owner user.Name (fun r => { r with Password := pw }) s.rows),
        writes := s.writes + 1 }
      user.Owner user.Name = some { row with Password := pw } := by
    unfold getUser at hrow ⊢
    simp only
    rw [find_updateRows, hrow]
    · simp only [Option.map_some', hkey, if_true]
    · intro r _
      rfl
  have hg2 := getUser_hashUpdate env _ user.Owner user.Name _ hg1
  refine ⟨affectedRows env user.Owner user.Name (fun r => { r with Password := pw }) s.rows != 0,
    _, ?_, hg2, ?_, rfl⟩
  · unfold SetUserField
    simp only [if_true, horg, hup]
    unfold engineUpdateMap
    simp only [columnUpdate_password, hg1]
    rfl
  · rw [preHash_hashUpdate]
    exact updateRows_map_eq User.PreHash _ _ _ _ (fun r => rfl)

/-- Once requester and target are resolved, the request is permitted and the
old password verified, `SetPassword` is decided by the two format checks and
the write. -/
theorem SetPassword_validated (env : Env) (s : Store)
    (sessionUser userOwner userName oldPassword newPassword : String)
    (requestUser targetUser : User) (h0 : sessionUser ≠ "")
    (hreq : GetUser env s sessionUser = some (some requestUser))
    (htgt : GetUser env s (userOwner ++ "/" ++ userName) = some (some targetUser))
    (hperm : hasPermission requestUser sessionUser (userOwner ++ "/" ++ userName) targetUser
      = true)
    (hold : CheckPassword env targetUser oldPassword = some "") :
    SetPassword env s sessionUser userOwner userName oldPassword newPassword =
      if stringsIndexSpace newPassword ≥ 0 then
        some (ResponseError "New password cannot contain blank space.", s)
      else if newPassword.utf8ByteSize ≤ 5 then
        some (ResponseError "New password must have at least 6 characters", s)
      else
        match SetUserField env s { targetUser with Password := newPassword } "password"
            newPassword with
        | none => none
        | some r => some ({ Status := "ok", Msg := "" }, r.2) := by
  unfold SetPassword
  simp only [h0, if_false, hreq, htgt, hperm, hold, Bool.not_true, Bool.false_eq_true, ne_eq,
    not_true_eq_false]

/-- C3: `SetPassword` fails closed. Whenever it answers with an error
response, the table it leaves is the table it found, rows and count of write
statements alike, so `SetUserField` did not run; and a denied permission
decision yields the permission error with the table untouched whatever the
policy engine would say, `CheckPassword` not being reached. -/
theorem SetPassword_fails_closed (env : Env) (s : Store)
    (sessionUser userOwner userName oldPassword newPassword : String) :
    (∀ r s', SetPassword env s sessionUser userOwner userName oldPassword newPassword
        = some (r, s') → r.Status = "error" → s' = s) ∧
    (∀ requestUser targetUser, sessionUser ≠ "" →
      GetUser env s sessionUser = some (some requestUser) →
      GetUser env s (userOwner ++ "/" ++ userName) = some (some targetUser) →
      hasPermission requestUser sessionUser (userOwner ++ "/" ++ userName) targetUser = false →
      SetPassword env s sessionUser userOwner userName oldPassword newPassword =
        some (ResponseError "You don't have the permission to do this.", s)) := by
  constructor
  · intro r s' h hr
    unfold SetPassword at h
    simp only at h
    by_cases h0 : sessionUser = ""
    · rw [if_pos h0] at h; cases h; rfl
    rw [if_neg h0] at h
    cases hq : GetUser env s sessionUser with
    | none => rw [hq] at h; cases h
    | some oq =>
      rw [hq] at h
      cases oq with
      | none => cases h; rfl
      | some requestUser =>
        simp only at h
        cases ht : GetUser env s (userOwner ++ "/" ++ userName) with
        | none => rw [ht] at h; cases h
        | some ot =>
          rw [ht] at h
          cases ot with
          | none => cases h; rfl
          | some targetUser =>
            simp only at h
            split at h
            · cases h; rfl
            · cases hc : CheckPassword env targetUser oldPassword with
              | none => rw [hc] at h; cases h
              | some msg =>
                rw [hc] at h
                simp only at h
                split at h
                · cases h; rfl
                · split at h
                  · cases h; rfl
                  · split at h
                    · cases h; rfl
                    · split at h
                      · cases h
                      · cases h
                        exact absurd hr (by decide)
  · intro requestUser targetUser h0 hreq htgt hperm
    unfold SetPassword
    simp only [h0, if_false, hreq, htgt, hperm, Bool.not_false, if_true]

/-- Instance of C3: a wrong old password, and a request of `carol` on `bob`. -/
theorem SetPassword_fails_closed_witness :
    (SetPassword sampleEnv sampleStore "T/carol" "T" "carol" "wrong" "longenough" =
        some (ResponseError "password incorrect", sampleStore) ∧
      (ResponseError "password incorrect").Status = "error" ∧
      ({ rows := [sampleBob, sampleCarol, sampleDave], writes := 0 } : Store) = sampleStore) ∧
    ("T/carol" ≠ "" ∧
      GetUser sampleEnv sampleStore "T/carol" = some (some sampleCarol) ∧
      GetUser sampleEnv sampleStore ("T" ++ "/" ++ "bob") = some (some sampleBob) ∧
      hasPermission sampleCarol "T/carol" ("T" ++ "/" ++ "bob") sampleBob = false ∧
      SetPassword sampleEnv sampleStore "T/carol" "T" "bob" "bobpw1" "longenough" =
        some (ResponseError "You don't have the permission to do this.", sampleStore)) :=
  ⟨⟨by decide, by decide,
    (SetPassword_fails_closed sampleEnv sampleStore "T/carol" "T" "carol" "wrong"
      "longenough").1 (ResponseError "password incorrect")
      { rows := [sampleBob, sampleCarol, sampleDave], writes := 0 } (by decide) (by decide)⟩,
   ⟨by decide, by decide, by decide, by decide,
    (SetPassword_fails_closed sampleEnv sampleStore "T/carol" "T" "bob" "bobpw1"
      "longenough").2 sampleCarol sampleBob (by decide) (by decide) (by decide) (by decide)⟩⟩

/-- C4, as stated, fails: the new password `abc` TAB `def` contains a
whitespace character, yet an authorized request with the verified old
password is answered `ok` and the table is changed. -/
theorem SetPassword_accepts_tab :
    reWhiteSpaceMatch "abc\tdef" = true ∧
      (SetPassword sampleEnv sampleStore "T/carol" "T" "carol" "old1!" "abc\tdef").map Prod.fst =
        some { Status := "ok", Msg := "" } ∧
      (SetPassword sampleEnv sampleStore "T/carol" "T" "carol" "old1!" "abc\tdef").map Prod.snd ≠
        some sampleStore := by
  decide

/-- C4, amended: for every request that reaches format validation (requester
and target resolved, request permitted, old password verified), a new password
that contains a blank space is rejected with the blank-space error, and one
without blank space whose length is at most 5 bytes is rejected with the
length error; in both cases the table, fingerprints included, is the one found. -/
theorem SetPassword_rejects_format (env : Env) (s : Store)
    (sessionUser userOwner userName oldPassword newPassword : String)
    (requestUser targetUser : User) (h0 : sessionUser ≠ "")
    (hreq : GetUser env s sessionUser = some (some requestUser))
    (htgt : GetUser env s (userOwner ++ "/" ++ userName) = some (some targetUser))
    (hperm : hasPermission requestUser sessionUser (userOwner ++ "/" ++ userName) targetUser
      = true)
    (hold : CheckPassword env targetUser oldPassword = some "") :
    (' ' ∈ newPassword.data →
      SetPassword env s sessionUser userOwner userName oldPassword newPassword =
        some (ResponseError "New password cannot contain blank space.", s)) ∧
    (' ' ∉ newPassword.data → newPassword.utf8ByteSize ≤ 5 →
      SetPassword env s sessionUser userOwner userName oldPassword newPassword =
        some (ResponseError "New password must have at least 6 characters", s)) := by
  rw [SetPassword_validated env s sessionUser userOwner userName oldPassword newPassword
    requestUser targetUser h0 hreq htgt hperm hold]
  constructor
  · intro hsp
    rw [if_pos ((stringsIndexSpace_nonneg_iff newPassword).2 hsp)]
  · intro hsp hlen
    have hneg : ¬ stringsIndexSpace newPassword ≥ 0 :=
      fun hc => hsp ((stringsIndexSpace_nonneg_iff newPassword).1 hc)
    rw [if_neg hneg, if_pos hlen]

/-- Instance of the amended C4 at the new passwords `ab cde` and `abcde`. -/
theorem SetPassword_rejects_format_witness :
    SetPassword sampleEnv sampleStore "T/carol" "T" "carol" "old1!" "ab cde" =
        some (ResponseError "New password cannot contain blank space.", sampleStore) ∧
      SetPassword sampleEnv sampleStore "T/carol" "T" "carol" "old1!" "abcde" =
        some (ResponseError "New password must have at least 6 characters", sampleStore) :=
  ⟨(SetPassword_rejects_format sampleEnv sampleStore "T/carol" "T" "carol" "old1!" "ab cde"
      sampleCarol sampleCarol (by decide) (by decide) (by decide) (by decide) (by decide)).1
      (by decide),
   (SetPassword_rejects_format sampleEnv sampleStore "T/carol" "T" "carol" "old1!" "abcde"
      sampleCarol sampleCarol (by decide) (by decide) (by decide) (by decide) (by decide)).2
      (by decide) (by decide)⟩

/-- C10, as stated, fails: with the salted policy of salt `xyz`, a target
whose stored password is the salted `old1!` and an authorized requester, the
request with old password `old1!` and new password `new1!` is rejected by the
length check, `new1!` having 5 bytes, and the table is left as found. -/
theorem SetPassword_new1_rejected :
    sampleEnv.GetOrganizationByUser sampleCarol =
        some { PasswordType := "salt", PasswordSalt := "xyz" } ∧
      sampleCarol.Password = sampleEnv.getSaltedPassword "old1!" "xyz" ∧
      hasPermission sampleBob "T/bob" ("T" ++ "/" ++ "carol") sampleCarol = true ∧
      SetPassword sampleEnv sampleStore "T/bob" "T" "carol" "old1!" "new1!" =
        some (ResponseError "New password must have at least 6 characters", sampleStore) := by
  decide

/-- C10, amended: with a tenant policy of salted mode with salt `xyz`, a
target whose stored password is the salted transform of `old1!`, and a
permitted requester, a request with old password `old1!` and a new password
of at least 6 bytes without blank space is answered `ok`; afterwards the
target's stored password is the salted transform of the new password, its
stored Hash is the fingerprint of the record as stored, and its PreHash, like
that of every row, is unchanged. -/
theorem SetPassword_end_to_end (env : Env) (s : Store)
    (sessionUser userOwner userName newPassword : String)
    (requestUser targetUser : User) (h0 : sessionUser ≠ "")
    (hreq : GetUser env s sessionUser = some (some requestUser))
    (htgt : GetUser env s (userOwner ++ "/" ++ userName) = some (some targetUser))
    (hperm : hasPermission requestUser sessionUser (userOwner ++ "/" ++ userName) targetUser
      = true)
    (horg : env.GetOrganizationByUser targetUser =
      some { PasswordType := "salt", PasswordSalt := "xyz" })
    (horg2 : env.GetOrganizationByUser { targetUser with Password := newPassword } =
      some { PasswordType := "salt", PasswordSalt := "xyz" })
    (hstored : targetUser.Password = env.getSaltedPassword "old1!" "xyz")
    (hnospace : ' ' ∉ newPassword.data) (hlen : 6 ≤ newPassword.utf8ByteSize) :
    ∃ s' t', SetPassword env s sessionUser userOwner userName "old1!" newPassword =
        some ({ Status := "ok", Msg := "" }, s') ∧
      getUser s' targetUser.Owner targetUser.Name = some t' ∧
      t' = { targetUser with Password := env.getSaltedPassword newPassword "xyz", Hash := t'.Hash } ∧
      t'.Password = env.getSaltedPassword newPassword "xyz" ∧
      t'.Hash = calculateHash env t' ∧
      t'.PreHash = targetUser.PreHash ∧
      s'.rows.map User.PreHash = s.rows.map User.PreHash := by
  have hold : CheckPassword env targetUser "old1!" = some "" := by
    unfold CheckPassword
    rw [horg]
    simp [hstored]
  have hrow := GetUser_self env s _ targetUser htgt
  obtain ⟨b, s', hset, hget, hpre, _⟩ :=
    SetUserField_password env s { targetUser with Password := newPassword } targetUser
      newPassword _ horg2 hrow rfl rfl
  simp only [if_true] at hget
  refine ⟨s', _, ?_, hget, rfl, rfl, rfl, rfl, hpre⟩
  rw [SetPassword_validated env s sessionUser userOwner userName "old1!" newPassword
    requestUser targetUser h0 hreq htgt hperm hold]
  have hneg : ¬ stringsIndexSpace newPassword ≥ 0 :=
    fun hc => hnospace ((stringsIndexSpace_nonneg_iff newPassword).1 hc)
  have hlen2 : ¬ newPassword.utf8ByteSize ≤ 5 := by omega
  rw [if_neg hneg, if_neg hlen2, hset]

/-- Instance of the amended C10: `bob` changes the password of `carol` to `new12!`. -/
theorem SetPassword_end_to_end_witness :
    ∃ s' t', SetPassword sampleEnv sampleStore "T/bob" "T" "carol" "old1!" "new12!" =
        some ({ Status := "ok", Msg := "" }, s') ∧
      getUser s' sampleCarol.Owner sampleCarol.Name = some t' ∧
      t' = { sampleCarol with
        Password := sampleEnv.getSaltedPassword "new12!" "xyz", Hash := t'.Hash } ∧
      t'.Password = sampleEnv.getSaltedPassword "new12!" "xyz" ∧
      t'.Hash = calculateHash sampleEnv t' ∧
      t'.PreHash = sampleCarol.PreHash ∧
      s'.rows.map User.PreHash = sampleStore.rows.map User.PreHash :=
  SetPassword_end_to_end sampleEnv sampleStore "T/bob" "T" "carol" "new12!" sampleBob sampleCarol
    (by decide) (by decide) (by decide) (by decide) (by decide) (by decide) (by decide)
    (by decide) (by decide)

/-! ## Integrity hash chain -/

/-- `AddUser`, when it returns, has appended one record, carrying the key of
its argument, whose PreHash equals its Hash and whose Hash is the fingerprint
of the record as stored; under a key with non-empty parts `getUser` finds it. -/
theorem AddUser_returns (env : Env) (s s' : Store) (generatedId : String) (user : User)
    (b : Bool) (h : AddUser env s generatedId user = some (b, s')) :
    ∃ r, s'.rows = s.rows ++ [r] ∧ r.Owner = user.Owner ∧ r.Name = user.Name ∧
      r.PreHash = r.Hash ∧ r.Hash = calculateHash env r ∧
      (user.Owner ≠ "" → user.Name ≠ "" → getUser s' user.Owner user.Name = some r) := by
  unfold AddUser at h
  simp only at h
  cases hup : UpdateUserPassword env { user with Id := generatedId }
      (env.GetOrganizationByUser { user with Id := generatedId }) with
  | none => rw [hup] at h; cases h
  | some u =>
    rw [hup] at h
    obtain ⟨hk1, hk2⟩ := UpdateUserPassword_key env _ u _ hup
    have hk1' : u.Owner = user.Owner := hk1
    have hk2' : u.Name = user.Name := hk2
    simp only at h
    unfold engineInsert at h
    split_ifs at h with hany
    cases h
    refine ⟨_, rfl, hk1', hk2', rfl, rfl, ?_⟩
    intro hno hnn
    unfold getUser
    simp only [List.find?_append]
    have hnone : List.find? (matchesBean user.Owner user.Name) s.rows = none := by
      rw [List.find?_eq_none]
      intro x hx hkx
      apply hany
      rw [List.any_eq_true]
      refine ⟨x, hx, ?_⟩
      rw [matchesBean_nonempty _ _ _ hno hnn] at hkx
      show hasKey u.Owner u.Name x = true
      rw [hk1', hk2']
      exact hkx
    rw [hnone]
    have hself : matchesBean user.Owner user.Name
        { UpdateUserHash env u with PreHash := (UpdateUserHash env u).Hash } = true := by
      rw [matchesBean_iff]
      exact ⟨Or.inr hk1', Or.inr hk2'⟩
    simp [List.find?, hself]

/-- For every environment, the Hash that `UpdateUser` persists is the
fingerprint of its argument, while Id, Password and Phone of the persisted
record are the stored ones. -/
theorem UpdateUser_persists_argument_hash (env : Env) (s : Store) (id owner name : String)
    (user row : User) (hid : env.GetOwnerAndNameFromId id = some (owner, name))
    (hrow : getUser s owner name = some row)
    (hko : row.Owner = owner) (hkn : row.Name = name) :
    ∃ b s', UpdateUser env s id user = some (b, s') ∧
      getUser s' owner name =
        some { row with DisplayName := user.DisplayName, Avatar := user.Avatar,
                        Affiliation := user.Affiliation, Tag := user.Tag,
                        IsAdmin := user.IsAdmin, IsGlobalAdmin := user.IsGlobalAdmin,
                        IsForbidden := user.IsForbidden, Hash := calculateHash env user } := by
  refine ⟨(engineUpdateCols env s owner name
      ["display_name", "avatar", "affiliation", "tag", "is_admin", "is_global_admin",
       "is_forbidden", "hash"] (UpdateUserHash env user)).1 != 0,
    (engineUpdateCols env s owner name
      ["display_name", "avatar", "affiliation", "tag", "is_admin", "is_global_admin",
       "is_forbidden", "hash"] (UpdateUserHash env user)).2, ?_, ?_⟩
  · unfold UpdateUser
    simp only [hid, hrow]
  · have hkey : hasKey owner name row = true := (hasKey_iff _ _ _).2 ⟨hko, hkn⟩
    unfold getUser at hrow ⊢
    unfold engineUpdateCols
    simp only [updateUserCols_apply]
    rw [find_updateRows, hrow]
    · simp only [Option.map_some', hkey, if_true]
      rfl
    · intro r _
      rfl

/-- C7 fails on `UpdateUser`: posting back the masked record of `carol`, as
`GetMaskedUser` hands it out, returns true and leaves a persisted record whose
Password is the stored salted one while its Hash is the fingerprint of the
masked password, so the stored Hash is not `calculateHash` of the persisted
record. -/
theorem UpdateUser_breaks_consistency :
    ∃ s' r, UpdateUser sampleEnv sampleStore "T/carol" (GetMaskedUser sampleCarol) =
        some (true, s') ∧
      getUser s' "T" "carol" = some r ∧
      r.Password = "salted:xyz:old1!" ∧
      r.Hash = "md5:id-carol|***|Carol||" ∧
      calculateHash sampleEnv r = "md5:id-carol|salted:xyz:old1!|Carol||" ∧
      r.Hash ≠ calculateHash sampleEnv r :=
  ⟨(engineUpdateCols sampleEnv sampleStore "T" "carol"
      ["display_name", "avatar", "affiliation", "tag", "is_admin", "is_global_admin",
       "is_forbidden", "hash"] (UpdateUserHash sampleEnv (GetMaskedUser sampleCarol))).2,
   { sampleCarol with Hash := "md5:id-carol|***|Carol||" },
   by decide, by decide, by decide, by decide, by decide, by decide⟩

/-- C8, as stated, fails on `UpdateUserForOriginal`: its column list contains
`pre_hash`, so the PreHash of the existing record `carol` after the call is
the one of the argument, not the one persisted before. -/
theorem UpdateUserForOriginal_overwrites_PreHash :
    (getUser sampleStore "T" "carol").map User.PreHash =
        some "md5:id-carol|salted:xyz:old1!|Carol||" ∧
      (getUser (UpdateUserForOriginal sampleEnv sampleStore
          { sampleCarol with PreHash := "other" }).2 "T" "carol").map User.PreHash =
        some "other" := by
  decide

/-- C8, amended: `AddUser` stores a record whose PreHash equals its Hash, the
fingerprint of the record as stored; `UpdateUser`, and `SetUserField` on a
field that does not name the column `pre_hash`, leave the persisted PreHash of
every record as it was; `SetUserField` on a field that names the column
`pre_hash`, in whatever spelling the database resolves to it, writes its value
into the PreHash of the keyed record; `UpdateUserForOriginal` writes the
PreHash of its argument into the keyed record; both leave the PreHash of every
other record as it was. -/
theorem PreHash_across_mutations (env : Env) (s : Store) :
    (∀ generatedId user b s', AddUser env s generatedId user = some (b, s') →
      ∃ r, s'.rows = s.rows ++ [r] ∧ r.Owner = user.Owner ∧ r.Name = user.Name ∧
        r.PreHash = r.Hash ∧ r.Hash = calculateHash env r ∧
        (user.Owner ≠ "" → user.Name ≠ "" → getUser s' user.Owner user.Name = some r)) ∧
    (∀ id user b s', UpdateUser env s id user = some (b, s') →
      s'.rows.map User.PreHash = s.rows.map User.PreHash) ∧
    (∀ user field value b s', resolveColumn env field ≠ some "pre_hash" →
      SetUserField env s user field value = some (b, s') →
      s'.rows.map User.PreHash = s.rows.map User.PreHash) ∧
    (∀ user field value b s', resolveColumn env field = some "pre_hash" →
      SetUserField env s user field value = some (b, s') →
      s'.rows.map User.PreHash =
        s.rows.map (fun r => if hasKey user.Owner user.Name r then value else r.PreHash)) ∧
    (∀ user, (UpdateUserForOriginal env s user).2.rows.map User.PreHash =
      s.rows.map (fun r => if hasKey user.Owner user.Name r then user.PreHash else r.PreHash)) := by
  refine ⟨?_, ?_, ?_, ?_, ?_⟩
  · intro generatedId user b s' h
    exact AddUser_returns env s s' generatedId user b h
  · intro id user b s' h
    unfold UpdateUser at h
    cases hp : env.GetOwnerAndNameFromId id with
    | none => rw [hp] at h; cases h
    | some p =>
      obtain ⟨owner, name⟩ := p
      rw [hp] at h
      simp only at h
      cases hg : getUser s owner name with
      | none => rw [hg] at h; cases h; rfl
      | some row =>
        rw [hg] at h
        simp only [Option.some.injEq, Prod.mk.injEq] at h
        obtain ⟨_, hs'⟩ := h
        subst hs'
        unfold engineUpdateCols
        simp only [updateUserCols_apply]
        exact updateRows_map_eq User.PreHash owner name _ _ (fun r => rfl)
  · intro user field value b s' hfield h
    obtain ⟨v, f, hcu, _, hmap⟩ := (SetUserField_returns env s s' user field value b h).2
    rw [hmap]
    exact updateRows_map_eq User.PreHash _ _ _ _ (columnUpdate_preHash env field v f hcu hfield)
  · intro user field value b s' hfield h
    obtain ⟨v, f, hcu, hv, hmap⟩ := (SetUserField_returns env s s' user field value b h).2
    have hnp : field ≠ "password" := by
      intro hc
      rw [hc] at hfield
      unfold resolveColumn at hfield
      rw [if_pos (by decide)] at hfield
      exact absurd (Option.some.inj hfield) (by decide)
    rw [hv hnp] at hcu
    unfold columnUpdate at hcu
    rw [hfield] at hcu
    simp only [columnAssign_pre_hash, Option.some.injEq] at hcu
    subst hcu
    rw [hmap]
    unfold updateRows
    rw [List.map_map]
    apply List.map_congr_left
    intro r _
    by_cases hk : hasKey user.Owner user.Name r = true
    · simp [hk]
    · simp [hk]
  · intro user
    unfold UpdateUserForOriginal engineUpdateCols
    simp only [originalCols_apply]
    unfold updateRows
    rw [List.map_map]
    apply List.map_congr_left
    intro r _
    by_cases hk : hasKey user.Owner user.Name r = true
    · simp [hk]
    · simp [hk]

/-- Instance of the amended C8: enrolling `erin`, posting back the masked
`carol`, linking an account of `carol`, and writing the field `PRE_HASH`. -/
theorem PreHash_across_mutations_witness :
    (∃ r, (sampleStore.rows ++ [{ blankUser "T" "erin" with
          Id := "id-erin", Password := "salted:xyz:erinpw", Hash := "md5:id-erin|salted:xyz:erinpw|||",
          PreHash := "md5:id-erin|salted:xyz:erinpw|||" }]) = sampleStore.rows ++ [r] ∧
        r.Owner = "T" ∧ r.Name = "erin" ∧
        r.PreHash = r.Hash ∧ r.Hash = calculateHash sampleEnv r) ∧
      (engineUpdateCols sampleEnv sampleStore "T" "carol"
          ["display_name", "avatar", "affiliation", "tag", "is_admin", "is_global_admin",
           "is_forbidden", "hash"]
          (UpdateUserHash sampleEnv (GetMaskedUser sampleCarol))).2.rows.map User.PreHash =
        sampleStore.rows.map User.PreHash ∧
      (SetUserField sampleEnv sampleStore sampleCarol "github" "carol-gh" =
          some (true, { rows := [sampleBob, { sampleCarol with Github := "carol-gh" }, sampleDave],
                        writes := 2 }) ∧
        [sampleBob, { sampleCarol with Github := "carol-gh" }, sampleDave].map User.PreHash =
          sampleStore.rows.map User.PreHash) ∧
      (SetUserField sampleEnv sampleStore sampleCarol "PRE_HASH" "tampered" =
          some (true, { rows := [sampleBob, { sampleCarol with PreHash := "tampered" }, sampleDave],
                        writes := 2 }) ∧
        [sampleBob, { sampleCarol with PreHash := "tampered" }, sampleDave].map User.PreHash =
          sampleStore.rows.map
            (fun r => if hasKey sampleCarol.Owner sampleCarol.Name r then "tampered"
              else r.PreHash)) := by
  refine ⟨?_, ?_, ⟨by decide, ?_⟩, ⟨by decide, ?_⟩⟩
  · obtain ⟨r, h1, h2, h3, h4, h5, _⟩ :=
      (PreHash_across_mutations sampleEnv sampleStore).1 "id-erin"
        { blankUser "T" "erin" with Password := "erinpw" } true
        { rows := sampleStore.rows ++ [{ blankUser "T" "erin" with
            Id := "id-erin", Password := "salted:xyz:erinpw",
            Hash := "md5:id-erin|salted:xyz:erinpw|||",
            PreHash := "md5:id-erin|salted:xyz:erinpw|||" }], writes := 1 } (by decide)
    exact ⟨r, h1, h2, h3, h4, h5⟩
  · exact (PreHash_across_mutations sampleEnv sampleStore).2.1 "T/carol"
      (GetMaskedUser sampleCarol) true
      (engineUpdateCols sampleEnv sampleStore "T" "carol"
        ["display_name", "avatar", "affiliation", "tag", "is_admin", "is_global_admin",
         "is_forbidden", "hash"] (UpdateUserHash sampleEnv (GetMaskedUser sampleCarol))).2
      (by decide)
  · exact (PreHash_across_mutations sampleEnv sampleStore).2.2.1 sampleCarol "github" "carol-gh"
      true { rows := [sampleBob, { sampleCarol with Github := "carol-gh" }, sampleDave],
             writes := 2 } (by decide) (by decide)
  · exact (PreHash_across_mutations sampleEnv sampleStore).2.2.2.1 sampleCarol "PRE_HASH"
      "tampered" true
      { rows := [sampleBob, { sampleCarol with PreHash := "tampered" }, sampleDave],
        writes := 2 } (by decide) (by decide)

end Casdoor
